import Mathlib

/-!
Verification development for the fake-news-detector repository.

The Python sources under `backend/` are embedded shallowly:

* `backend/utils/helpers.py`   — input validation (`validate_text_input`);
* `backend/data/simple_preprocessor.py` and `backend/data/preprocessor.py`
  — the text normalizer (cleaning, punctuation removal, tokenization,
  stop-word removal, token filtering);
* `backend/models/predictor.py` and `backend/app.py` — the inference path
  of the logistic-regression model (label mapping and confidence);
* `backend/models/mock_predictor.py` — the heuristic mock predictor;
* `backend/app.py` — the `/train` endpoint's state transition;
* `backend/models/train_model.py` — the training pipeline's control flow.

Machine floats are modelled as exact rationals (`ℚ`); where a claim is
about bit-for-bit reproduction they are modelled as their 64-bit patterns
(`Nat`).  Python strings are modelled over `List Char` restricted to the
behaviour of the code on text; character classes (`\s`, `str.lower`,
`str.isdigit`) are modelled on their ASCII/Unicode-whitespace behaviour as
noted at each definition.  Fallible Python code returns `Option`/`Except`,
with raised exceptions as distinguished error values.
-/

namespace FND

/-- A Python runtime value, as far as the validation and preprocessing
entry points discriminate them: a string, `None`, an `int`, or a `list`.
Only truthiness, string-ness and the string payload are observed by the
embedded code. -/
inductive PyVal where
  | pyStr (s : String)
  | pyNone
  | pyInt (n : Int)
  | pyList (l : List PyVal)

/-- Python truthiness for the embedded value type: `""`, `None`, `0` and
`[]` are falsy, everything else is truthy. -/
def PyVal.truthy : PyVal → Bool
  | .pyStr s => s != ""
  | .pyNone => false
  | .pyInt n => n != 0
  | .pyList l => !l.isEmpty

/-- `isinstance(v, str)`. -/
def PyVal.isStr : PyVal → Bool
  | .pyStr _ => true
  | _ => false

/-- The string payload of a `PyVal` (only meaningful when `isStr`). -/
def PyVal.str : PyVal → String
  | .pyStr s => s
  | _ => ""

/-- `c.isalpha()` for ASCII letters (the validator's inputs of interest are
ASCII text; Python's `str.isalpha` agrees with this on ASCII). -/
def isAsciiAlpha (c : Char) : Bool :=
  (('a' ≤ c ∧ c ≤ 'z') ∨ ('A' ≤ c ∧ c ≤ 'Z'))

/-- Python's whitespace class: the characters matched by `\s` in `re` (str
patterns) and split on by `str.split()` / stripped by `str.strip()`. -/
def isPySpace (c : Char) : Bool :=
  c = ' ' ∨ c = '\t' ∨ c = '\n' ∨ c = '\r' ∨ c = '\x0b' ∨ c = '\x0c' ∨
  c.toNat = 0x1c ∨ c.toNat = 0x1d ∨ c.toNat = 0x1e ∨ c.toNat = 0x1f ∨
  c.toNat = 0x85 ∨ c.toNat = 0xa0 ∨ c.toNat = 0x1680 ∨
  (0x2000 ≤ c.toNat ∧ c.toNat ≤ 0x200a) ∨
  c.toNat = 0x2028 ∨ c.toNat = 0x2029 ∨ c.toNat = 0x202f ∨
  c.toNat = 0x205f ∨ c.toNat = 0x3000

/-- `s.strip()`: drop leading and trailing whitespace. -/
def pyStrip (l : List Char) : List Char :=
  ((l.dropWhile isPySpace).reverse.dropWhile isPySpace).reverse

/-- Number of alphabetic characters of `s`
(`sum(c.isalpha() for c in text)` in `helpers.validate_text_input`). -/
def alphaCount (s : String) : Nat :=
  (s.toList.filter isAsciiAlpha).length

/-- `helpers.validate_text_input(text, max_length)` (`helpers.py:11-40`).
Returns the error message, or `none` when the input is valid.  The guards
are in source order: falsy check, `isinstance` check, maximum length,
minimum stripped length, alphabetic ratio.  The float comparison
`alpha_chars / len(text) < 0.3` is modelled exactly as the rational
comparison `10 * alpha_chars < 3 * len(text)`; the two comparisons agree
at every reachable input. -/
def validate_text_input (text : PyVal) (max_length : Nat) : Option String :=
  if ¬ text.truthy then some "Text cannot be empty"
  else if ¬ text.isStr then some "Text must be a string"
  else
    let s := text.str
    if s.length > max_length then
      some ("Text too long. Maximum " ++ toString max_length ++
        " characters allowed, got " ++ toString s.length)
    else if (pyStrip s.toList).length < 10 then
      some "Text too short. Please provide at least 10 characters"
    else if 10 * alphaCount s < 3 * s.length then
      some "Text must contain at least 30% alphabetic characters"
    else none

/-- The alphabetic-ratio division `alpha_chars / len(text)` at
`helpers.py:37` is evaluated exactly when all the guards before it fail:
the input is truthy, a string, within the length bound, and at least 10
characters long after stripping. -/
def reachesRatioCheck (text : PyVal) (max_length : Nat) : Prop :=
  text.truthy ∧ text.isStr ∧ text.str.length ≤ max_length ∧
    10 ≤ (pyStrip text.str.toList).length

theorem pyStrip_length_le (l : List Char) : (pyStrip l).length ≤ l.length := by
  have h1 : (l.dropWhile isPySpace).length ≤ l.length :=
    (List.dropWhile_sublist _).length_le
  have h2 : ((l.dropWhile isPySpace).reverse.dropWhile isPySpace).length ≤
      (l.dropWhile isPySpace).reverse.length :=
    (List.dropWhile_sublist _).length_le
  simp only [List.length_reverse] at h2
  simp only [pyStrip, List.length_reverse]
  omega

/-- C10: every falsy input — the empty string, `None`, `0`, the empty
list — is rejected with "Text cannot be empty" because the emptiness
check precedes the type check; "Text must be a string" is reachable only
for truthy non-string inputs; and the alphabetic-ratio division is
evaluated only on text of positive length. -/
theorem c10_falsy_input_validation (text : PyVal) (max_length : Nat) :
    (¬ text.truthy → validate_text_input text max_length =
      some "Text cannot be empty") ∧
    (validate_text_input text max_length = some "Text must be a string" →
      text.truthy ∧ ¬ text.isStr) ∧
    (reachesRatioCheck text max_length → 0 < text.str.length) := by
  refine ⟨fun h => ?_, fun h => ?_, fun h => ?_⟩
  · simp [validate_text_input, h]
  · by_cases ht : text.truthy
    · by_cases hs : text.isStr
      · exfalso
        simp only [validate_text_input, ht, hs, not_true_eq_false,
          if_false] at h
        split_ifs at h with h1 h2 h3 <;> simp only [Option.some.injEq] at h
        · have hlen := congrArg String.length h
          simp only [String.length_append] at hlen
          have e1 : ("Text too long. Maximum " : String).length = 23 := by decide
          have e2 : (" characters allowed, got " : String).length = 25 := by decide
          have e3 : ("Text must be a string" : String).length = 21 := by decide
          omega
        · exact absurd h (by decide)
        · exact absurd h (by decide)
      · exact ⟨ht, by simp [hs]⟩
    · have hv : validate_text_input text max_length =
          some "Text cannot be empty" := by
        simp [validate_text_input, ht]
      rw [hv] at h
      exact absurd h (by decide)
  · obtain ⟨-, -, -, h4⟩ := h
    have := pyStrip_length_le text.str.toList
    have hlen : text.str.toList.length = text.str.length := rfl
    omega

theorem c10_falsy_input_validation_witness :
    validate_text_input .pyNone 10000 = some "Text cannot be empty" ∧
    validate_text_input (.pyInt 0) 10000 = some "Text cannot be empty" ∧
    validate_text_input (.pyList []) 10000 = some "Text cannot be empty" ∧
    validate_text_input (.pyStr "") 10000 = some "Text cannot be empty" ∧
    (PyVal.truthy (.pyInt 5) ∧ ¬ PyVal.isStr (.pyInt 5)) ∧
    0 < (PyVal.pyStr "abcdefghijkl").str.length :=
  ⟨(c10_falsy_input_validation .pyNone 10000).1 (by decide),
   (c10_falsy_input_validation (.pyInt 0) 10000).1 (by decide),
   (c10_falsy_input_validation (.pyList []) 10000).1 (by decide),
   (c10_falsy_input_validation (.pyStr "") 10000).1 (by decide),
   (c10_falsy_input_validation (.pyInt 5) 10000).2.1 (by decide),
   (c10_falsy_input_validation (.pyStr "abcdefghijkl") 10000).2.2
     (by refine ⟨by decide, by decide, by decide, by decide⟩)⟩

/-! ## Text normalization

Embedding of `SimpleTextPreprocessor` (`simple_preprocessor.py`) and of
the repository-owned parts of `TextPreprocessor` (`preprocessor.py`).
The regex substitutions of `clean_text` are implemented by left-to-right
scans that reproduce Python's leftmost, non-overlapping matching with
greedy `\S+` and lazy `.*?`. -/

/-- ASCII model of `str.lower()` on one character: `A`–`Z` map to
`a`–`z`, every other character is unchanged (Python also lowers non-ASCII
cased letters, which `clean_text` later deletes either way). -/
def pyLowerChar (c : Char) : Char :=
  if 65 ≤ c.toNat ∧ c.toNat ≤ 90 then Char.ofNat (c.toNat + 32) else c

/-- `text.lower()` character-wise. -/
def pyLower (l : List Char) : List Char := l.map pyLowerChar

/-- ASCII digit `0`–`9` (Python's `str.isdigit` also accepts non-ASCII
decimal digits, which never survive `remove_punctuation`). -/
def isAsciiDigit (c : Char) : Bool := 48 ≤ c.toNat ∧ c.toNat ≤ 57

/-- The character class `[a-zA-Z0-9]` of `remove_punctuation`. -/
def isAsciiAlnum (c : Char) : Bool :=
  isAsciiAlpha c || isAsciiDigit c

/-- Whether a match of `http\S+|www\S+|https\S+` begins at the head of
`l`: the `https\S+` alternative is subsumed by `http\S+`, so a match is
`http` or `www` followed by at least one non-whitespace character; the
greedy `\S+` then extends to the end of the non-whitespace run. -/
def urlStart (l : List Char) : Bool :=
  (l.take 4 = ['h', 't', 't', 'p'] ∧
    (l.drop 4).head?.any (fun c => !isPySpace c)) ∨
  (l.take 3 = ['w', 'w', 'w'] ∧
    (l.drop 3).head?.any (fun c => !isPySpace c))

/-- Scan for `re.sub(r'http\S+|www\S+|https\S+', '', text)`.  The flag
records that the scan is inside a matched URL, whose remaining
non-whitespace characters are deleted. -/
def subUrlsAux : Bool → List Char → List Char
  | _, [] => []
  | skip, c :: cs =>
    if skip && !isPySpace c then subUrlsAux true cs
    else if urlStart (c :: cs) then subUrlsAux true cs
    else c :: subUrlsAux false cs

/-- `re.sub(r'http\S+|www\S+|https\S+', '', text)` (`clean_text`). -/
def subUrls (l : List Char) : List Char := subUrlsAux false l

/-- Whether a character list contains an `@` that is not its last
element. -/
def atNotLast : List Char → Bool
  | [] => false
  | [_] => false
  | a :: b :: rest => a == '@' || atNotLast (b :: rest)

/-- Whether `\S+@\S+` matches at the head of `l`: the head must be
non-whitespace and the non-whitespace run starting there must contain an
`@` at offset at least 1 that is followed by another non-whitespace
character; the greedy `\S+` pieces then cover the whole run. -/
def emailMatch (l : List Char) : Bool :=
  !(l.head?.all isPySpace) &&
    atNotLast ((l.takeWhile (fun c => !isPySpace c)).drop 1)

/-- Scan for `re.sub(r'\S+@\S+', '', text)`: a matched run is deleted
entirely (both `\S+` pieces are greedy). -/
def subEmailsAux : Bool → List Char → List Char
  | _, [] => []
  | skip, c :: cs =>
    if skip && !isPySpace c then subEmailsAux true cs
    else if emailMatch (c :: cs) then subEmailsAux true cs
    else c :: subEmailsAux false cs

/-- `re.sub(r'\S+@\S+', '', text)` (`clean_text`). -/
def subEmails (l : List Char) : List Char := subEmailsAux false l

/-- Position of the first `>` in `l` that is not preceded by a newline
(`.` in `<.*?>` does not match `\n`). -/
def findGt : List Char → Option Nat
  | [] => none
  | c :: cs =>
    if c == '>' then some 0
    else if c == '\n' then none
    else (findGt cs).map (· + 1)

/-- Scan for `re.sub(r'<.*?>', '', text)`: at a `<`, the lazy `.*?`
reaches the first `>` on the same line; the whole `<…>` span is deleted.
The counter counts characters of a matched span still to be dropped. -/
def subTagsAux : Nat → List Char → List Char
  | _, [] => []
  | n + 1, _ :: cs => subTagsAux n cs
  | 0, c :: cs =>
    if c == '<' then
      match findGt cs with
      | some k => subTagsAux (k + 1) cs
      | none => c :: subTagsAux 0 cs
    else c :: subTagsAux 0 cs

/-- `re.sub(r'<.*?>', '', text)` (`clean_text`). -/
def subTags (l : List Char) : List Char := subTagsAux 0 l

/-- Scan for `re.sub(r'\s+', ' ', text)`: each maximal whitespace run
becomes a single space.  The flag records that the previous character was
whitespace. -/
def collapseWsAux : Bool → List Char → List Char
  | _, [] => []
  | prevSpace, c :: cs =>
    if isPySpace c then
      if prevSpace then collapseWsAux true cs
      else ' ' :: collapseWsAux true cs
    else c :: collapseWsAux false cs

/-- `re.sub(r'\s+', ' ', text)` (`clean_text`). -/
def collapseWs (l : List Char) : List Char := collapseWsAux false l

/-- `clean_text` (`simple_preprocessor.py:28-51`, character-identical in
`preprocessor.py:59-89`): lower-case, strip URLs, strip e-mail addresses,
strip HTML-like tags, collapse whitespace runs, strip the ends. -/
def clean_text (l : List Char) : List Char :=
  pyStrip (collapseWs (subTags (subEmails (subUrls (pyLower l)))))

/-- `remove_punctuation` (`simple_preprocessor.py:53-57`,
character-identical in `preprocessor.py:91-102`):
`re.sub(r'[^a-zA-Z0-9\s]', '', text)` keeps alphanumerics and
whitespace. -/
def remove_punctuation (l : List Char) : List Char :=
  l.filter (fun c => isAsciiAlnum c || isPySpace c)

/-- Accumulator scan for `str.split()`: split on whitespace runs, never
producing empty tokens.  `acc` holds the current token reversed. -/
def pySplitAux : List Char → List Char → List (List Char)
  | acc, [] => if acc.isEmpty then [] else [acc.reverse]
  | acc, c :: cs =>
    if isPySpace c then
      if acc.isEmpty then pySplitAux [] cs
      else acc.reverse :: pySplitAux [] cs
    else pySplitAux (c :: acc) cs

/-- `text.split()` (`tokenize_text` of `simple_preprocessor.py:59-61`). -/
def pySplit (l : List Char) : List (List Char) := pySplitAux [] l

/-- `str.lower()` on a whole string (ASCII model, see `pyLowerChar`). -/
def pyLowerStr (s : String) : String := String.mk (pyLower s.data)

/-- The stop-word set of `SimpleTextPreprocessor.__init__`
(`simple_preprocessor.py:16-26`; the source's set literal lists `the`
twice, which a set collapses). -/
def simpleStopWords : List String :=
  ["a", "an", "and", "are", "as", "at", "be", "by", "for", "from",
   "has", "he", "in", "is", "it", "its", "of", "on", "that", "the",
   "to", "was", "will", "with", "this", "but", "they", "have",
   "had", "what", "said", "each", "which", "she", "do", "how", "their",
   "if", "up", "out", "many", "then", "them", "these", "so", "some",
   "her", "would", "make", "like", "into", "him", "time", "two", "more",
   "go", "no", "way", "could", "my", "than", "first", "been", "call",
   "who", "oil", "sit", "now", "find", "down", "day", "did", "get",
   "come", "made", "may", "part"]

/-- `remove_stopwords` (`simple_preprocessor.py:63-65`, same body in
`preprocessor.py:121-130`), parametrized by the stop-word set the
preprocessor instance holds: keep tokens whose lower-casing is not a
stop word. -/
def remove_stopwords (stop : List String) (tokens : List String) :
    List String :=
  tokens.filter (fun t => !(stop.contains (pyLowerStr t)))

/-- `token.isdigit()` (ASCII model): non-empty and all decimal digits. -/
def pyIsDigitStr (s : String) : Bool :=
  !s.data.isEmpty && s.data.all isAsciiDigit

/-- `filter_tokens` with its default `min_length=2`
(`simple_preprocessor.py:67-75`, character-identical in
`preprocessor.py:143-159`): keep tokens of length at least 2 that are
not purely numeric. -/
def filter_tokens (tokens : List String) : List String :=
  tokens.filter (fun t => decide (2 ≤ t.length) && !pyIsDigitStr t)

/-- The token sequence built by `SimpleTextPreprocessor.preprocess_text`
(`simple_preprocessor.py:77-101`) with its default
`remove_stopwords=True`, immediately before the final `' '.join`: the
guard maps non-string and falsy input to the empty sequence, otherwise
clean, strip punctuation, split, drop stop words, filter tokens. -/
def simplePreprocessTokens (text : PyVal) : List String :=
  if ¬ text.truthy ∨ ¬ text.isStr then []
  else
    filter_tokens
      (remove_stopwords simpleStopWords
        ((pySplit (remove_punctuation (clean_text text.str.data))).map
          (fun t => String.mk t)))

/-- `SimpleTextPreprocessor.preprocess_text`
(`simple_preprocessor.py:77-101`): the tokens joined by single spaces
(the guard's early `return ""` coincides with joining no tokens). -/
def SimpleTextPreprocessor.preprocess_text (text : PyVal) : String :=
  " ".intercalate (simplePreprocessTokens text)

/-- `TextPreprocessor.preprocess_text` (`preprocessor.py:161-198`) with
its default arguments, parametrized by the external NLTK word tokenizer,
the Porter stemmer, and the stop-word set the instance holds (NLTK data,
outside this repository).  The repository-owned steps — the input guard,
`clean_text`, `remove_punctuation`, the stop-word filter, `filter_tokens`
and the final join — are embedded from the source. -/
def TextPreprocessor.preprocess_text (tokenize : String → List String)
    (stem : String → String) (stop : List String) (text : PyVal) : String :=
  if ¬ text.truthy ∨ ¬ text.isStr then ""
  else
    " ".intercalate
      ((filter_tokens
        ((tokenize
            (String.mk (remove_punctuation (clean_text text.str.data)))).filter
          (fun t => !(stop.contains (pyLowerStr t))))).map stem)

theorem char_toNat_ofNat {n : Nat} (h : n < 55296) :
    (Char.ofNat n).toNat = n := by
  have hv : n.isValidChar := Or.inl h
  simp only [Char.ofNat, dif_pos hv, Char.ofNatAux, Char.toNat, UInt32.toNat,
    BitVec.toNat_ofNatLt]

theorem pyLowerChar_not_upper (c : Char) :
    ¬ (65 ≤ (pyLowerChar c).toNat ∧ (pyLowerChar c).toNat ≤ 90) := by
  unfold pyLowerChar
  split_ifs with h
  · have : (Char.ofNat (c.toNat + 32)).toNat = c.toNat + 32 :=
      char_toNat_ofNat (by omega)
    omega
  · omega

theorem subUrlsAux_subset {c : Char} :
    ∀ (skip : Bool) (l : List Char), c ∈ subUrlsAux skip l → c ∈ l := by
  intro skip l
  induction l generalizing skip with
  | nil => simp [subUrlsAux]
  | cons d ds ih =>
    simp only [subUrlsAux]
    split_ifs with h1 h2
    · exact fun h => List.mem_cons_of_mem _ (ih true h)
    · exact fun h => List.mem_cons_of_mem _ (ih true h)
    · intro h
      rcases List.mem_cons.mp h with h | h
      · exact h ▸ List.mem_cons_self _ _
      · exact List.mem_cons_of_mem _ (ih false h)

theorem subEmailsAux_subset {c : Char} :
    ∀ (skip : Bool) (l : List Char), c ∈ subEmailsAux skip l → c ∈ l := by
  intro skip l
  induction l generalizing skip with
  | nil => simp [subEmailsAux]
  | cons d ds ih =>
    simp only [subEmailsAux]
    split_ifs with h1 h2
    · exact fun h => List.mem_cons_of_mem _ (ih true h)
    · exact fun h => List.mem_cons_of_mem _ (ih true h)
    · intro h
      rcases List.mem_cons.mp h with h | h
      · exact h ▸ List.mem_cons_self _ _
      · exact List.mem_cons_of_mem _ (ih false h)

theorem subTagsAux_subset {c : Char} :
    ∀ (n : Nat) (l : List Char), c ∈ subTagsAux n l → c ∈ l := by
  intro n l
  induction l generalizing n with
  | nil => simp [subTagsAux]
  | cons d ds ih =>
    match n with
    | n + 1 => exact fun h => List.mem_cons_of_mem _ (ih n h)
    | 0 =>
      intro h
      simp only [subTagsAux] at h
      by_cases h1 : d == '<'
      · rw [if_pos h1] at h
        cases hg : findGt ds with
        | some k =>
          rw [hg] at h
          exact List.mem_cons_of_mem _ (ih (k + 1) h)
        | none =>
          rw [hg] at h
          rcases List.mem_cons.mp h with h | h
          · exact h ▸ List.mem_cons_self _ _
          · exact List.mem_cons_of_mem _ (ih 0 h)
      · rw [if_neg h1] at h
        rcases List.mem_cons.mp h with h | h
        · exact h ▸ List.mem_cons_self _ _
        · exact List.mem_cons_of_mem _ (ih 0 h)

theorem collapseWsAux_mem {c : Char} :
    ∀ (b : Bool) (l : List Char), c ∈ collapseWsAux b l → c ∈ l ∨ c = ' ' := by
  intro b l
  induction l generalizing b with
  | nil => simp [collapseWsAux]
  | cons d ds ih =>
    simp only [collapseWsAux]
    split_ifs with h1 h2
    · intro h
      rcases ih true h with h | h
      · exact Or.inl (List.mem_cons_of_mem _ h)
      · exact Or.inr h
    · intro h
      rcases List.mem_cons.mp h with h | h
      · exact Or.inr h
      · rcases ih true h with h | h
        · exact Or.inl (List.mem_cons_of_mem _ h)
        · exact Or.inr h
    · intro h
      rcases List.mem_cons.mp h with h | h
      · exact Or.inl (h ▸ List.mem_cons_self _ _)
      · rcases ih false h with h | h
        · exact Or.inl (List.mem_cons_of_mem _ h)
        · exact Or.inr h

theorem pyStrip_subset {c : Char} {l : List Char} (h : c ∈ pyStrip l) :
    c ∈ l := by
  unfold pyStrip at h
  rw [List.mem_reverse] at h
  have h2 := List.dropWhile_subset _ h
  rw [List.mem_reverse] at h2
  exact List.dropWhile_subset _ h2

/-- Characters of `clean_text l` come from the lower-cased input, or are
the space written by whitespace collapsing. -/
theorem clean_text_mem {c : Char} {l : List Char} (h : c ∈ clean_text l) :
    c ∈ pyLower l ∨ c = ' ' := by
  unfold clean_text at h
  have h1 := pyStrip_subset h
  rcases collapseWsAux_mem false _ h1 with h2 | h2
  · exact Or.inl (subUrlsAux_subset false _
      (subEmailsAux_subset false _ (subTagsAux_subset 0 _ h2)))
  · exact Or.inr h2

/-- Characters of the tokens of `pySplitAux acc l` come from `acc` or
`l`, and are never whitespace (assuming the accumulated characters are
not). -/
theorem pySplitAux_mem {c : Char} :
    ∀ (l acc : List Char), (∀ a ∈ acc, isPySpace a = false) →
      ∀ t ∈ pySplitAux acc l, c ∈ t → (c ∈ acc ∨ c ∈ l) ∧
        isPySpace c = false := by
  intro l
  induction l with
  | nil =>
    intro acc hacc t ht hc
    simp only [pySplitAux] at ht
    split_ifs at ht with h1
    · simp at ht
    · simp only [List.mem_singleton] at ht
      subst ht
      rw [List.mem_reverse] at hc
      exact ⟨Or.inl hc, hacc c hc⟩
  | cons d ds ih =>
    intro acc hacc t ht hc
    simp only [pySplitAux] at ht
    split_ifs at ht with h1 h2
    · have := ih [] (by simp) t ht hc
      rcases this with ⟨h3 | h3, h4⟩
      · simp at h3
      · exact ⟨Or.inr (List.mem_cons_of_mem _ h3), h4⟩
    · rcases List.mem_cons.mp ht with ht | ht
      · subst ht
        rw [List.mem_reverse] at hc
        exact ⟨Or.inl hc, hacc c hc⟩
      · have := ih [] (by simp) t ht hc
        rcases this with ⟨h3 | h3, h4⟩
        · simp at h3
        · exact ⟨Or.inr (List.mem_cons_of_mem _ h3), h4⟩
    · have hacc2 : ∀ a ∈ d :: acc, isPySpace a = false := by
        intro a ha
        rcases List.mem_cons.mp ha with ha | ha
        · subst ha
          exact Bool.not_eq_true _ ▸ (by simpa using h1)
        · exact hacc a ha
      have := ih (d :: acc) hacc2 t ht hc
      rcases this with ⟨h3 | h3, h4⟩
      · rcases List.mem_cons.mp h3 with h3 | h3
        · exact ⟨Or.inr (h3 ▸ List.mem_cons_self _ _), h4⟩
        · exact ⟨Or.inl h3, h4⟩
      · exact ⟨Or.inr (List.mem_cons_of_mem _ h3), h4⟩

/-- C7: for every non-string input and for the empty string, both
normalizers return the empty token sequence (the empty processed string),
raising no exception — the embedded pipelines are total functions and the
guard short-circuits before any processing. -/
theorem c7_malformed_input_empty_output (text : PyVal)
    (tokenize : String → List String) (stem : String → String)
    (stop : List String)
    (h : ¬ text.isStr ∨ text = .pyStr "") :
    simplePreprocessTokens text = [] ∧
    SimpleTextPreprocessor.preprocess_text text = "" ∧
    TextPreprocessor.preprocess_text tokenize stem stop text = "" := by
  have hg : ¬ text.truthy ∨ ¬ text.isStr := by
    rcases h with h | h
    · exact Or.inr h
    · subst h
      exact Or.inl (by decide)
  have h1 : simplePreprocessTokens text = [] := by
    rw [simplePreprocessTokens, if_pos hg]
  refine ⟨h1, ?_, ?_⟩
  · rw [SimpleTextPreprocessor.preprocess_text, h1]
    rfl
  · rw [TextPreprocessor.preprocess_text, if_pos hg]

theorem c7_malformed_input_empty_output_witness :
    simplePreprocessTokens .pyNone = [] ∧
    SimpleTextPreprocessor.preprocess_text .pyNone = "" ∧
    TextPreprocessor.preprocess_text (fun _ => []) id [] .pyNone = "" :=
  c7_malformed_input_empty_output .pyNone (fun _ => []) id []
    (Or.inl (by decide))

/-- C8 fails as stated: the normalizer's tokens need not be purely
alphabetic.  On input `"covid19 vaccine hoax"` the token `covid19` is
produced, and it contains the non-alphabetic digits `1` and `9`
(`remove_punctuation` keeps `[a-zA-Z0-9]` and `filter_tokens` drops only
purely-numeric tokens). -/
theorem c8_counterexample_alnum_token :
    "covid19" ∈ simplePreprocessTokens (.pyStr "covid19 vaccine hoax") ∧
    ¬ ∀ c ∈ ("covid19" : String).data, isAsciiAlpha c = true := by
  constructor
  · decide
  · decide

/-- C8 amended: every token produced by the normalizer is made of
lowercase letters and digits only (lowercase alphanumeric, not
alphabetic-only as claimed), has length at least 2, and is not composed
entirely of digits. -/
theorem c8_amended_token_shape (s : String) (t : String)
    (ht : t ∈ simplePreprocessTokens (.pyStr s)) :
    (∀ c ∈ t.data, (97 ≤ c.toNat ∧ c.toNat ≤ 122) ∨
      (48 ≤ c.toNat ∧ c.toNat ≤ 57)) ∧
    2 ≤ t.length ∧ pyIsDigitStr t = false := by
  by_cases hg : ¬ (PyVal.pyStr s).truthy ∨ ¬ (PyVal.pyStr s).isStr
  · rw [simplePreprocessTokens, if_pos hg] at ht
    simp at ht
  · rw [simplePreprocessTokens, if_neg hg] at ht
    rw [filter_tokens, List.mem_filter] at ht
    obtain ⟨ht, hshape⟩ := ht
    rw [remove_stopwords, List.mem_filter] at ht
    obtain ⟨ht, -⟩ := ht
    rw [List.mem_map] at ht
    obtain ⟨tok, htok, rfl⟩ := ht
    rw [Bool.and_eq_true, decide_eq_true_iff, Bool.not_eq_true'] at hshape
    refine ⟨?_, hshape.1, hshape.2⟩
    intro c hc
    have hc' : c ∈ tok := hc
    have hmem := pySplitAux_mem _ [] (by simp) tok htok hc'
    obtain ⟨hin | hin, hnospace⟩ := hmem
    · simp at hin
    · rw [remove_punctuation, List.mem_filter] at hin
      obtain ⟨hin, hkeep⟩ := hin
      rw [Bool.or_eq_true] at hkeep
      rcases hkeep with hkeep | hkeep
      · rcases clean_text_mem hin with hlow | hsp
        · rw [pyLower, List.mem_map] at hlow
          obtain ⟨c0, -, rfl⟩ := hlow
          have hnu := pyLowerChar_not_upper c0
          rw [isAsciiAlnum, Bool.or_eq_true, isAsciiAlpha, isAsciiDigit,
            decide_eq_true_iff, decide_eq_true_iff] at hkeep
          rcases hkeep with hkeep | hkeep
          · rcases hkeep with hkeep | hkeep
            · exact Or.inl hkeep
            · exact absurd hkeep hnu
          · exact Or.inr hkeep
        · subst hsp
          simp [isPySpace] at hnospace
      · rw [hkeep] at hnospace
        simp at hnospace

theorem c8_amended_token_shape_witness :
    (∀ c ∈ ("covid19" : String).data, (97 ≤ c.toNat ∧ c.toNat ≤ 122) ∨
      (48 ≤ c.toNat ∧ c.toNat ≤ 57)) ∧
    2 ≤ ("covid19" : String).length ∧ pyIsDigitStr "covid19" = false :=
  c8_amended_token_shape "covid19 vaccine hoax" "covid19" (by decide)

/-! ## Classifier and inference path

Embedding of the binary scikit-learn `LogisticRegression` as used by
`FakeNewsPredictor.predict` (`predictor.py:85-109`) and by the `/predict`
endpoint (`app.py:159-172`), which run the identical computation:
`prediction = model.predict(x)[0]`, `proba = model.predict_proba(x)[0]`,
`confidence = max(proba)`, label `'REAL' if prediction == 1 else 'FAKE'`.
Floats are exact rationals; the transcendental sigmoid is embedded
through its order-theoretic interface (`SigmoidFn`), together with a
concrete rational squashing function satisfying that interface. -/

/-- The loaded classifier weights: `model.coef_[0]` and
`model.intercept_[0]`. -/
structure LogisticModel where
  coef : List ℚ
  intercept : ℚ

/-- Dot product of coefficient and feature vectors (missing tails count
as zero). -/
def dotQ : List ℚ → List ℚ → ℚ
  | [], _ => 0
  | _ :: _, [] => 0
  | a :: as, b :: bs => a * b + dotQ as bs

/-- `decision_function(x) = w · x + b`. -/
def decisionFunction (m : LogisticModel) (x : List ℚ) : ℚ :=
  dotQ m.coef x + m.intercept

/-- The properties of the logistic sigmoid `1/(1+e^{-s})` that the
inference path depends on: strictly increasing, valued in `(0, 1)`, and
`1/2` at `0`.  The sigmoid itself is not rational-valued, so the
embedding is stated for every function with these properties. -/
structure SigmoidFn where
  f : ℚ → ℚ
  pos : ∀ s, 0 < f s
  lt_one : ∀ s, f s < 1
  mono : StrictMono f
  at_zero : f 0 = 1 / 2

/-- A concrete rational squashing function, `s ↦ 1/2 + s/(2(1+|s|))`,
realizing the `SigmoidFn` interface. -/
def squashQ (s : ℚ) : ℚ := 1 / 2 + s / (2 * (1 + |s|))

theorem squashQ_denom_pos (s : ℚ) : 0 < 2 * (1 + |s|) := by
  have := abs_nonneg s
  linarith

theorem squashQ_pos (s : ℚ) : 0 < squashQ s := by
  unfold squashQ
  have hd := squashQ_denom_pos s
  rw [div_add_div _ _ (by norm_num) (ne_of_gt hd)]
  have habs : -(1 + |s|) < s := by
    rcases abs_cases s with ⟨h1, h2⟩ | ⟨h1, h2⟩ <;> linarith
  apply div_pos _ (by linarith)
  nlinarith

theorem squashQ_lt_one (s : ℚ) : squashQ s < 1 := by
  unfold squashQ
  have hd := squashQ_denom_pos s
  have habs : s < 1 + |s| := by
    rcases abs_cases s with ⟨h1, h2⟩ | ⟨h1, h2⟩ <;> linarith
  have : s / (2 * (1 + |s|)) < 1 / 2 := by
    rw [div_lt_div_iff₀ hd (by norm_num)]
    linarith
  linarith

theorem squashQ_strictMono : StrictMono squashQ := by
  intro a b hab
  unfold squashQ
  have hda := squashQ_denom_pos a
  have hdb := squashQ_denom_pos b
  have key : a * (2 * (1 + |b|)) < b * (2 * (1 + |a|)) := by
    rcases abs_cases a with ⟨ha1, ha2⟩ | ⟨ha1, ha2⟩ <;>
      rcases abs_cases b with ⟨hb1, hb2⟩ | ⟨hb1, hb2⟩ <;>
      rw [ha1, hb1] <;> nlinarith
  have := (div_lt_div_iff₀ hda hdb).mpr key
  linarith

/-- The concrete `SigmoidFn` instance. -/
def sigmoidQ : SigmoidFn :=
  ⟨squashQ, squashQ_pos, squashQ_lt_one, squashQ_strictMono, by
    unfold squashQ
    norm_num⟩

/-- `model.predict(x)[0]` for the binary model: class 1 exactly when the
decision value is positive. -/
def modelPredict (m : LogisticModel) (x : List ℚ) : Nat :=
  if 0 < decisionFunction m x then 1 else 0

/-- `model.predict_proba(x)[0]` for the binary model with classes
`[0, 1]`: the pair `(P(class 0), P(class 1)) = (1 - σ(s), σ(s))`. -/
def predictProba (sg : SigmoidFn) (m : LogisticModel) (x : List ℚ) :
    ℚ × ℚ :=
  (1 - sg.f (decisionFunction m x), sg.f (decisionFunction m x))

/-- The label mapping of the inference path (`predictor.py:106`,
`app.py:167`): `'REAL' if prediction == 1 else 'FAKE'`. -/
def predictionLabel (prediction : Nat) : String :=
  if prediction == 1 then "REAL" else "FAKE"

/-- The `(label, confidence)` pair computed by the inference path
(`predictor.py:85-109`, identically `app.py:159-172`):
`confidence = max(prediction_proba)` over the two class probabilities,
and the label from `predictionLabel`. -/
def predictOutput (sg : SigmoidFn) (m : LogisticModel) (x : List ℚ) :
    String × ℚ :=
  (predictionLabel (modelPredict m x),
   max (predictProba sg m x).1 (predictProba sg m x).2)

/-- The label encoding applied at training time by
`ModelTrainer.load_data` (`train_model.py:51-53`):
`y.map({'real': 0, 'fake': 1, 'REAL': 0, 'FAKE': 1})`; labels outside
the mapping become missing values, modelled as `none`. -/
def trainLabelEncode (label : String) : Option Nat :=
  if label == "real" then some 0
  else if label == "fake" then some 1
  else if label == "REAL" then some 0
  else if label == "FAKE" then some 1
  else none

/-- C1 fails on the code, and the code contradicts its own training
encoding: `load_data` encodes fake as class 1 (`train_model.py:51-53`),
and at the weights `w = [1], b = 0` and feature vector `x = [1]` the
decision value is `1 > 0`, so the model predicts class 1 with
`P(class 1) = 3/4 ≥ 1/2`; the claim (and the training encoding) then
require the public label `fake`, but the inference path maps class 1 to
`REAL` (`predictor.py:106`, `app.py:167`). -/
theorem c1_label_mapping_contradicts_training :
    trainLabelEncode "fake" = some 1 ∧
    modelPredict ⟨[1], 0⟩ [1] = 1 ∧
    1 / 2 ≤ (predictProba sigmoidQ ⟨[1], 0⟩ [1]).2 ∧
    (predictOutput sigmoidQ ⟨[1], 0⟩ [1]).1 = "REAL" := by
  have hdec : decisionFunction ⟨[1], 0⟩ [1] = 1 := by
    norm_num [decisionFunction, dotQ]
  refine ⟨by decide, ?_, ?_, ?_⟩
  · rw [modelPredict, hdec]
    norm_num
  · show 1 / 2 ≤ sigmoidQ.f (decisionFunction ⟨[1], 0⟩ [1])
    rw [hdec]
    show (1 : ℚ) / 2 ≤ squashQ 1
    rw [squashQ]
    norm_num
  · show predictionLabel (modelPredict ⟨[1], 0⟩ [1]) = "REAL"
    rw [modelPredict, hdec]
    norm_num [predictionLabel]

/-! ## Mock predictor

Embedding of `MockPredictor.predict` (`mock_predictor.py:28-90`).  The
seeded `random.uniform(-0.05, 0.05)` draw — a deterministic function of
the text's hash — is a parameter `rf`. -/

/-- Whether the first list is an initial segment of the second. -/
def startsWithChars : List Char → List Char → Bool
  | [], _ => true
  | _ :: _, [] => false
  | a :: as, b :: bs => a == b && startsWithChars as bs

/-- Substring containment on character lists. -/
def containsSub : List Char → List Char → Bool
  | [], needle => needle.isEmpty
  | c :: cs, needle => startsWithChars needle (c :: cs) || containsSub cs needle

/-- Python's substring test `needle in hay`. -/
def strContains (hay needle : String) : Bool := containsSub hay.data needle.data

/-- The `fake_keywords` list (`mock_predictor.py:37-42`). -/
def fakeKeywords : List String :=
  ["breaking", "urgent", "shocking", "exclusive", "bombshell",
   "incredible", "miraculous", "secret", "exposed", "government",
   "pharma", "aliens", "time", "traveler", "weird", "trick",
   "doctors", "hate", "scientists", "baffled", "want", "know"]

/-- The ASCII apostrophe, written by code point. -/
def apos : String := String.singleton (Char.ofNat 39)

/-- The clickbait phrases (`mock_predictor.py:62`). -/
def clickbaitPhrases : List String :=
  ["click here", "share this", "you won" ++ apos ++ "t believe"]

/-- The sensational phrases (`mock_predictor.py:66`). -/
def sensationalPhrases : List String :=
  ["amazing", "incredible", "unbelievable", "shocking", "stunning"]

/-- `word.isupper()` (ASCII model): at least one letter and no lowercase
letter. -/
def pyIsUpperStr (w : String) : Bool :=
  w.data.any isAsciiAlpha &&
    w.data.all (fun c => !decide (97 ≤ c.toNat ∧ c.toNat ≤ 122))

/-- The `fake_score` accumulated by `MockPredictor.predict`
(`mock_predictor.py:46-69`): keyword hits, an exclamation-mark burst,
an uppercase-word ratio, clickbait phrases, and sensational phrases.
The float comparison `uppercase_words > len(text.split()) * 0.2` is
the exact rational comparison `5 * uppercase_words > len(words)`. -/
def mockFakeScore (text : String) : Nat :=
  let text_lower := pyLowerStr text
  let kw := (fakeKeywords.filter (fun k => strContains text_lower k)).length
  let s2 := kw + (if 3 < (text.data.filter (fun c => c == '!')).length
    then 2 else 0)
  let words := (pySplit text.data).map (fun w => String.mk w)
  let upperWords :=
    (words.filter (fun w => pyIsUpperStr w && decide (1 < w.length))).length
  let s3 := s2 + (if words.length < 5 * upperWords then 1 else 0)
  let s4 := s3 +
    (if clickbaitPhrases.any (fun p => strContains text_lower p) then 2 else 0)
  let sens :=
    (sensationalPhrases.filter (fun p => strContains text_lower p)).length
  s4 + (if 2 < sens then 1 else 0)

/-- `MockPredictor.predict` (`mock_predictor.py:28-90`): guard, score,
`fake_ratio = fake_score / max(total_words / 15, 1)`,
`base_confidence = 0.6 + fake_ratio * 0.25 + random_factor`,
clamp to `[0.15, 0.95]`, label by `fake_ratio > 0.4` with the
confidence inverted for `real`.  The preprocessed text is computed by
the source but unused. -/
def MockPredictor.predict (rf : ℚ) (text : PyVal) :
    Except String (String × ℚ) :=
  if ¬ text.truthy ∨ ¬ text.isStr then .error "Invalid text input"
  else
    let _processed := SimpleTextPreprocessor.preprocess_text text
    let s := text.str
    let fake_score : ℚ := (mockFakeScore s : ℚ)
    let total_words : ℚ := (((pySplit s.data).length : ℚ))
    let fake_ratio := fake_score / max (total_words / 15) 1
    let base_confidence := 3 / 5 + fake_ratio * (1 / 4) + rf
    let confidence := min (max base_confidence (3 / 20)) (19 / 20)
    if 2 / 5 < fake_ratio then .ok ("fake", confidence)
    else .ok ("real", 1 - confidence)

/-- C2: the confidence reported by the inference path is exactly the
probability the model assigns to the predicted class (`max` of the two
complementary class probabilities, never the raw decision value), and it
lies in `[0, 1]`; every confidence the mock predictor returns also lies
in `[0, 1]`. -/
theorem c2_confidence_is_predicted_class_probability
    (sg : SigmoidFn) (m : LogisticModel) (x : List ℚ)
    (rf : ℚ) (text : PyVal) :
    (predictOutput sg m x).2 =
      (if modelPredict m x = 1 then (predictProba sg m x).2
       else (predictProba sg m x).1) ∧
    0 ≤ (predictOutput sg m x).2 ∧ (predictOutput sg m x).2 ≤ 1 ∧
    (∀ lbl conf, MockPredictor.predict rf text = .ok (lbl, conf) →
      0 ≤ conf ∧ conf ≤ 1) := by
  have hpos := sg.pos (decisionFunction m x)
  have hlt := sg.lt_one (decisionFunction m x)
  refine ⟨?_, ?_, ?_, ?_⟩
  · show max (predictProba sg m x).1 (predictProba sg m x).2 = _
    simp only [predictProba, modelPredict]
    by_cases h : 0 < decisionFunction m x
    · have h2 : 1 / 2 < sg.f (decisionFunction m x) := by
        have := sg.mono h
        rw [sg.at_zero] at this
        exact this
      rw [if_pos h, if_pos rfl]
      exact max_eq_right (by linarith)
    · have h2 : sg.f (decisionFunction m x) ≤ 1 / 2 := by
        have := sg.mono.monotone (le_of_not_lt h)
        rw [sg.at_zero] at this
        exact this
      rw [if_neg h, if_neg (by decide : ¬ (0 : Nat) = 1)]
      exact max_eq_left (by linarith)
  · show 0 ≤ max (predictProba sg m x).1 (predictProba sg m x).2
    refine le_trans (le_of_lt hpos) ?_
    simp only [predictProba]
    exact le_max_right _ _
  · show max (predictProba sg m x).1 (predictProba sg m x).2 ≤ 1
    simp only [predictProba]
    exact max_le (by linarith) (le_of_lt hlt)
  · intro lbl conf h
    simp only [MockPredictor.predict] at h
    split_ifs at h with h1 h2 <;>
      simp only [Except.ok.injEq, Prod.mk.injEq] at h
    all_goals
      obtain ⟨-, hconf⟩ := h
      subst hconf
      have hle := min_le_right (max (3 / 5 +
          (mockFakeScore text.str : ℚ) /
            max (((pySplit text.str.data).length : ℚ) / 15) 1 * (1 / 4) + rf)
          (3 / 20)) ((19 : ℚ) / 20)
      have hge := le_min (le_max_right (3 / 5 +
          (mockFakeScore text.str : ℚ) /
            max (((pySplit text.str.data).length : ℚ) / 15) 1 * (1 / 4) + rf)
          ((3 : ℚ) / 20)) (by norm_num : (3 : ℚ) / 20 ≤ 19 / 20)
      constructor <;> linarith

theorem c2_confidence_witness :
    0 ≤ (2 : ℚ) / 5 ∧ (2 : ℚ) / 5 ≤ 1 :=
  (c2_confidence_is_predicted_class_probability sigmoidQ ⟨[1], 0⟩ [1] 0
    (.pyStr "hello")).2.2.2 "real" (2 / 5) (by
      have h1 : mockFakeScore (PyVal.str (.pyStr "hello")) = 0 := by decide
      have h2 : (pySplit (PyVal.str (.pyStr "hello")).data).length = 1 := by
        decide
      simp only [MockPredictor.predict]
      rw [if_neg (by decide)]
      rw [h1, h2]
      norm_num [min_def, max_def])

/-- C6: inference is deterministic — the embedded normalizers, the
model inference path, and the mock predictor (at its fixed seeded random
factor, a function of the text hash alone) are pure functions, so two
runs on the same input yield identical results. -/
theorem c6_inference_deterministic (t : PyVal) (sg : SigmoidFn)
    (m : LogisticModel) (x : List ℚ) (rf : ℚ)
    (tokenize : String → List String) (stem : String → String)
    (stop : List String) :
    simplePreprocessTokens t = simplePreprocessTokens t ∧
    SimpleTextPreprocessor.preprocess_text t =
      SimpleTextPreprocessor.preprocess_text t ∧
    TextPreprocessor.preprocess_text tokenize stem stop t =
      TextPreprocessor.preprocess_text tokenize stem stop t ∧
    predictOutput sg m x = predictOutput sg m x ∧
    MockPredictor.predict rf t = MockPredictor.predict rf t :=
  ⟨rfl, rfl, rfl, rfl, rfl⟩

/-! ## Prediction service and request-handling state

Embedding of `FakeNewsPredictor.predict`'s entry guards
(`predictor.py:65-75`) and of the Flask app's global model state with its
`/predict` and `/train` endpoints (`app.py`). -/

/-- The raised exceptions of the `FakeNewsPredictor` inference entry
point: the `RuntimeError('Model not loaded. Call load_model() first.')`
guard, the `TypeError`/`ValueError` raised at `predictor.py:73` by
unpacking the validator's `str | None` result into two names, the
`ValueError('Invalid input: …')` of `predictor.py:75`, and the wrapping
`RuntimeError('Prediction failed: …')` of `predictor.py:112`. -/
inductive PredictError where
  | modelNotLoaded
  | unpackError
  | invalidInput (msg : String)
  | predictionFailed (msg : String)

/-- `FakeNewsPredictor.predict` through its guards
(`predictor.py:65-75`): the not-loaded guard raises before anything
else; then `is_valid, errors = validate_text_input(text)` unpacks the
validator's return value, which is `None` (a `TypeError`) or an error
message string (a `ValueError` unless the message had exactly two
characters, which no validator message has — only then would the
try-block `body` be reached). -/
def FakeNewsPredictor.predict (is_loaded : Bool) (text : PyVal)
    (body : Except PredictError (String × ℚ)) :
    Except PredictError (String × ℚ) :=
  if is_loaded = false then .error .modelNotLoaded
  else
    match validate_text_input text 10000 with
    | none => .error .unpackError
    | some msg => if msg.length = 2 then body else .error .unpackError

/-- The Flask app's module-level globals (`app.py:22-25`): the pickled
model, the pickled vectorizer (as the transform it provides), and the
`model_loaded` flag. -/
structure AppState where
  model : Option LogisticModel
  vectorizer : Option (String → List ℚ)
  model_loaded : Bool

/-- `load_model` (`app.py:59-95`), parametrized by what unpickling the
model files yields: when both files exist and load, the globals are
replaced and `model_loaded` set; when the files are missing (or loading
raises), `model_loaded` is cleared and the old globals are kept. -/
def load_model (st : AppState)
    (disk : Option (LogisticModel × (String → List ℚ))) : AppState :=
  match disk with
  | some mv => ⟨some mv.1, some mv.2, true⟩
  | none => ⟨st.model, st.vectorizer, false⟩

/-- `ensure_model_loaded` (`app.py:27-31`): load only when the flag is
down. -/
def ensure_model_loaded (st : AppState)
    (disk : Option (LogisticModel × (String → List ℚ))) : AppState :=
  if st.model_loaded then st else load_model st disk

/-- The `/predict` endpoint's possible responses (`app.py:122-179`):
missing JSON text field (400), empty text (400), model not loaded (503),
a prediction (200), or the catch-all server error (500). -/
inductive PredictResponse where
  | noText
  | emptyText
  | modelNotLoaded
  | ok (label : String) (confidence : ℚ)
  | serverError (msg : String)

/-- A `\w` word character (`[a-zA-Z0-9_]`, ASCII model). -/
def isWordChar (c : Char) : Bool := isAsciiAlnum c || c == '_'

/-- Scan for `re.sub(r'@\w+|#\w+', '', text)` (`app.py:49`): a marker
followed by at least one word character is deleted together with the
greedy word-character run. -/
def subMentionsAux : Bool → List Char → List Char
  | _, [] => []
  | skip, c :: cs =>
    if skip && isWordChar c then subMentionsAux true cs
    else if (c == '@' || c == '#') && cs.head?.any isWordChar then
      subMentionsAux true cs
    else c :: subMentionsAux false cs

/-- `preprocess_text` of the app (`app.py:38-57`): lower-case, strip
URLs, strip mentions/hashtags, keep only letters and whitespace, and
re-join the whitespace-split words with single spaces. -/
def appPreprocessText (s : String) : String :=
  " ".intercalate
    ((pySplit
      ((subMentionsAux false (subUrls (pyLower s.data))).filter
        (fun c => isAsciiAlpha c || isPySpace c))).map
      (fun w => String.mk w))

/-- The `/predict` endpoint (`app.py:122-179`): ensure the model is
loaded (a state effect), reject a missing text field, reject falsy or
whitespace-only text (`if not text or len(text.strip()) == 0` — a truthy
non-string raises on `.strip()` and becomes the catch-all 500), answer
503 when no model is loaded, otherwise preprocess, vectorize with the
loaded vectorizer, and run the model. -/
def appPredict (sg : SigmoidFn)
    (disk : Option (LogisticModel × (String → List ℚ)))
    (st : AppState) (data : Option PyVal) : AppState × PredictResponse :=
  let st1 := ensure_model_loaded st disk
  match data with
  | none => (st1, .noText)
  | some text =>
    if ¬ text.truthy then (st1, .emptyText)
    else if ¬ text.isStr then
      (st1, .serverError "An error occurred during prediction")
    else if (pyStrip text.str.data).isEmpty then (st1, .emptyText)
    else if h : st1.model_loaded ∧ st1.model.isSome ∧
        st1.vectorizer.isSome then
      let out := predictOutput sg (st1.model.get h.2.1)
        ((st1.vectorizer.get h.2.2) (appPreprocessText text.str))
      (st1, .ok out.1 out.2)
    else (st1, .modelNotLoaded)

/-- The outcomes of the `/train` endpoint's call into the training
module (`app.py:181-210`): the import of `train_and_save_model` fails
(in this repository it always does — `train_model.py` defines no such
symbol), the call raises, the call returns falsy, or it returns truthy. -/
inductive TrainOutcome where
  | importError
  | exception (msg : String)
  | failed
  | success

/-- The `/train` endpoint's responses (`app.py:181-210`). -/
inductive TrainResponse where
  | trained (model_loaded : Bool)
  | error (msg : String)

/-- The `/train` endpoint (`app.py:181-210`): only a truthy training
result reaches `load_model()`; every failure path returns an error
response without touching the globals. -/
def train_model_endpoint (st : AppState)
    (disk : Option (LogisticModel × (String → List ℚ)))
    (outcome : TrainOutcome) : AppState × TrainResponse :=
  match outcome with
  | .success =>
    let st2 := load_model st disk
    (st2, .trained (st2.model.isSome && st2.vectorizer.isSome))
  | .failed =>
    (st, .error "Failed to train model. Check logs for details.")
  | .importError =>
    (st,
     .error "Training module not found. Please check if train_model.py exists.")
  | .exception msg =>
    (st, .error ("An error occurred during training: " ++ msg))

/-- C3: every failing outcome of a training run — import failure (the
only outcome reachable in this repository, since `train_and_save_model`
does not exist), a raised exception, or a falsy result — leaves the
in-memory model state exactly as it was, and the `/predict` endpoint
serves identical answers before and after. -/
theorem c3_failed_training_preserves_model (st : AppState)
    (disk disk2 : Option (LogisticModel × (String → List ℚ)))
    (msg : String) (sg : SigmoidFn) (data : Option PyVal) :
    (train_model_endpoint st disk .importError).1 = st ∧
    (train_model_endpoint st disk (.exception msg)).1 = st ∧
    (train_model_endpoint st disk .failed).1 = st ∧
    appPredict sg disk2 (train_model_endpoint st disk .importError).1 data =
      appPredict sg disk2 st data ∧
    appPredict sg disk2 (train_model_endpoint st disk (.exception msg)).1
      data = appPredict sg disk2 st data ∧
    appPredict sg disk2 (train_model_endpoint st disk .failed).1 data =
      appPredict sg disk2 st data :=
  ⟨rfl, rfl, rfl, rfl, rfl, rfl⟩

/-- C9 fails as stated: at the HTTP layer the emptiness check precedes
the model-loaded check, so a call made while no model is loaded, with
empty text, is answered with the empty-text validation error and not
with the model-not-loaded condition. -/
theorem c9_counterexample_empty_text_unloaded :
    (appPredict sigmoidQ none ⟨none, none, false⟩
      (some (.pyStr ""))).2 = .emptyText ∧
    PredictResponse.emptyText ≠ PredictResponse.modelNotLoaded := by
  refine ⟨rfl, fun h => ?_⟩
  cases h

/-- C9 amended: `FakeNewsPredictor.predict` always fails fast with the
distinct model-not-loaded error when `is_loaded` is false, before
validation and producing no partial result; the HTTP endpoint answers
503 model-not-loaded for every call whose text passes its emptiness
check while no model is loaded (and can be loaded from disk), a
condition distinct from the validation responses and from any prediction
result; a call with empty text is answered with the validation error
first. -/
theorem c9_amended_model_not_loaded_distinct (text : PyVal)
    (body : Except PredictError (String × ℚ)) (sg : SigmoidFn)
    (st : AppState) (t : String)
    (hload : st.model_loaded = false)
    (ht1 : (PyVal.pyStr t).truthy)
    (ht2 : ¬ (pyStrip t.data).isEmpty = true) :
    FakeNewsPredictor.predict false text body = .error .modelNotLoaded ∧
    (∀ msg, PredictError.modelNotLoaded ≠ PredictError.invalidInput msg) ∧
    (appPredict sg none st (some (.pyStr t))).2 = .modelNotLoaded ∧
    (∀ lbl conf, PredictResponse.modelNotLoaded ≠
      PredictResponse.ok lbl conf) := by
  refine ⟨rfl, ?_, ?_, ?_⟩
  · intro msg h
    cases h
  · have hst1 : ensure_model_loaded st none =
        ⟨st.model, st.vectorizer, false⟩ := by
      rw [ensure_model_loaded, hload]
      rfl
    rw [appPredict]
    simp only [hst1]
    rw [if_neg (by simpa using ht1)]
    rw [if_neg (by simp [PyVal.isStr])]
    rw [if_neg (by simpa [PyVal.str] using ht2)]
    rw [dif_neg (by simp)]
  · intro lbl conf h
    cases h

theorem c9_amended_model_not_loaded_distinct_witness :
    FakeNewsPredictor.predict false .pyNone
      (.error (.predictionFailed "x")) = .error .modelNotLoaded ∧
    (∀ msg, PredictError.modelNotLoaded ≠ PredictError.invalidInput msg) ∧
    (appPredict sigmoidQ none ⟨none, none, false⟩
      (some (.pyStr "breaking news today"))).2 = .modelNotLoaded ∧
    (∀ lbl conf, PredictResponse.modelNotLoaded ≠
      PredictResponse.ok lbl conf) :=
  c9_amended_model_not_loaded_distinct .pyNone
    (.error (.predictionFailed "x")) sigmoidQ ⟨none, none, false⟩
    "breaking news today" rfl (by decide) (by decide)

/-! ## Training pipeline control flow

Embedding of `ModelTrainer.train_pipeline` (`train_model.py:160-202`).
The pipeline itself catches nothing: `load_data` re-raises, and any
exception from the scikit-learn calls propagates to the caller (`main`
logs "Training failed" and re-raises).  The corpus is taken after the
CSV-loading collaborator, as `(text, integer label)` rows; the NLTK
preprocessor the trainer holds is a parameter `prep`. -/

/-- A propagating Python exception (only `ValueError`s arise on the
paths the claims exercise). -/
inductive PyExc where
  | valueError (msg : String)
deriving DecidableEq

/-- The `results` dictionary of a successful `train_pipeline` run
(`train_model.py:194-199`); the evaluation metrics are real-valued
outputs not observed by the claims and are not modelled. -/
structure TrainStats where
  total_samples : Nat
  training_samples : Nat
  test_samples : Nat
deriving DecidableEq

deriving instance DecidableEq for Except

/-- Modelled from the spec (§4.4 split policy) and scikit-learn's input
checks: `train_test_split(..., test_size=0.2, stratify=y)` raises a
`ValueError` when some class has fewer than 2 members or when either
side of the split is smaller than the number of classes
(`n_test = ceil(0.2 n)`, exactly `(n+4)/5`); the seeded shuffle itself
is external library code and is modelled as a deterministic split. -/
def stratifiedSplitCheck (y : List Nat) : Option PyExc :=
  let n := y.length
  let classes := y.dedup
  let n_test := (n + 4) / 5
  if classes.any (fun c => y.count c < 2) then
    some (.valueError
      "The least populated class in y has only 1 member, which is too few. The minimum number of groups for any class cannot be less than 2.")
  else if n - n_test < classes.length then
    some (.valueError
      "The train_size should be greater or equal to the number of classes.")
  else if n_test < classes.length then
    some (.valueError
      "The test_size should be greater or equal to the number of classes.")
  else none

/-- Modelled from the spec (§4.2): scikit-learn's tokenizer keeps runs
of at least two word characters and drops stop words; the preprocessed
documents are single-space joined, so tokens are the whitespace-split
words of length at least 2 outside the stop list. -/
def sklearnTokens (stopList : List String) (d : String) : List String :=
  (((pySplit d.data).map (fun w => String.mk w)).filter
    (fun t => decide (2 ≤ t.length))).filter
    (fun t => !(stopList.contains t))

/-- Modelled from the spec (§4.2): the unigrams and bigrams of a
document, for `ngram_range=(1, 2)`. -/
def docNgrams (stopList : List String) (d : String) : List String :=
  let toks := sklearnTokens stopList d
  toks ++ (toks.zip toks.tail).map (fun p => p.1 ++ " " ++ p.2)

/-- Number of documents containing the n-gram `t`. -/
def docFreq (stopList : List String) (docs : List String) (t : String) :
    Nat :=
  (docs.filter (fun d => (docNgrams stopList d).contains t)).length

/-- Modelled from the spec (§4.2): `TfidfVectorizer.fit` (external
library code) with the trainer's parameters `ngram_range=(1,2)`,
`min_df=2`, `max_df=0.95` (`train_model.py:75-81`): prune n-grams with
document frequency below 2 or above `0.95 n` (exactly `20 df > 19 n`),
and raise the `empty vocabulary` ValueError when nothing survives.  The
top-`max_features` ranking and the idf table are not modelled: the
pipeline claims observe only whether the vocabulary is empty. -/
def fitTfidfVocab (stopList : List String) (docs : List String) :
    Except PyExc (List String) :=
  let n := docs.length
  let vocab := ((docs.map (docNgrams stopList)).flatten.dedup).filter
    (fun t => decide (2 ≤ docFreq stopList docs t) &&
      decide (20 * docFreq stopList docs t ≤ 19 * n))
  if vocab.isEmpty then
    .error (.valueError
      "empty vocabulary; perhaps the documents only contain stop words")
  else .ok vocab

/-- The message of the `ValueError` scikit-learn's logistic regression
raises on single-class targets. -/
def singleClassMsg (c : Nat) : String :=
  "This solver needs samples of at least 2 classes in the data, but the data contains only one class: "
    ++ toString c

/-- Modelled from the spec (§4.3/§4.4): `LogisticRegression.fit`
(external library code, `train_model.py:99-106`) raises a `ValueError`
naming the single class when the targets contain fewer than two distinct
classes, and otherwise fits. -/
def fitLogisticRegression (y : List Nat) : Except PyExc Unit :=
  match y.dedup with
  | [] => .error (.valueError "Found array with 0 sample(s)")
  | [c] => .error (.valueError (singleClassMsg c))
  | _ => .ok ()

/-- `ModelTrainer.train_pipeline` (`train_model.py:160-202`): load and
preprocess the corpus, stratified split (`test_size=0.2`), fit the
vectorizer on the train split, fit the classifier, and return the run
statistics.  No step is wrapped in a handler: an `.error` is an
exception propagating out of the pipeline. -/
def train_pipeline (prep : String → String) (stopList : List String)
    (corpus : List (String × Nat)) : Except PyExc TrainStats :=
  let X := corpus.map (fun r => prep r.1)
  let y := corpus.map (fun r => r.2)
  match stratifiedSplitCheck y with
  | some e => .error e
  | none =>
    let n_test := (corpus.length + 4) / 5
    match fitTfidfVocab stopList (X.drop n_test) with
    | .error e => .error e
    | .ok _ =>
      match fitLogisticRegression (y.drop n_test) with
      | .error e => .error e
      | .ok _ =>
        .ok ⟨corpus.length, corpus.length - n_test, n_test⟩

/-- A six-document corpus carrying only label 0. -/
def singleClassCorpus : List (String × Nat) :=
  [("economy growth", 0), ("economy growth", 0), ("economy growth", 0),
   ("market rally", 0), ("market rally", 0), ("stocks rise", 0)]

/-- C4 fails as stated: on a corpus whose documents all carry label 0,
`train_pipeline` does not return a reported training failure — it
propagates scikit-learn's `ValueError` out of the pipeline (no
`TrainingError` value exists in the code); the propagated message does
identify the single-class data. -/
theorem c4_counterexample_single_class_propagates :
    train_pipeline id [] singleClassCorpus =
      .error (.valueError (singleClassMsg 0)) ∧
    ∀ stats, train_pipeline id [] singleClassCorpus ≠ .ok stats := by
  constructor
  · decide
  · intro stats h
    rw [(by decide : train_pipeline id [] singleClassCorpus =
      .error (.valueError (singleClassMsg 0)))] at h
    cases h

theorem dedup_const {l : List Nat} {c : Nat} (hne : l ≠ [])
    (hc : ∀ x ∈ l, x = c) : l.dedup = [c] := by
  induction l with
  | nil => exact absurd rfl hne
  | cons a as ih =>
    have ha : a = c := hc a (List.mem_cons_self _ _)
    subst ha
    by_cases h : as = []
    · subst h
      rfl
    · have hd := ih h (fun x hx => hc x (List.mem_cons_of_mem _ hx))
      have hmem : a ∈ as := by
        obtain ⟨b, bs, rfl⟩ := List.exists_cons_of_ne_nil h
        have hb : b = a := hc b (List.mem_cons_of_mem _
          (List.mem_cons_self _ _))
        exact hb ▸ List.mem_cons_self _ _
      rw [List.dedup_cons_of_mem hmem, hd]

/-- C4 amended: on a corpus of at least two documents all carrying the
same label, whose train split yields a non-empty vocabulary, the
training pipeline raises (propagates) scikit-learn's `ValueError` whose
message identifies the single class — it does not crash elsewhere or
with an unrelated exception, but neither does it return a structured
training-failure report. -/
theorem c4_amended_single_class_value_error (prep : String → String)
    (stopList : List String) (corpus : List (String × Nat)) (c : Nat)
    (vocab : List String)
    (hall : ∀ r ∈ corpus, r.2 = c)
    (hn : 2 ≤ corpus.length)
    (hvocab : fitTfidfVocab stopList
      ((corpus.map (fun r => prep r.1)).drop ((corpus.length + 4) / 5)) =
        .ok vocab) :
    train_pipeline prep stopList corpus =
      .error (.valueError (singleClassMsg c)) := by
  have hylen : (corpus.map (fun r => r.2)).length = corpus.length :=
    List.length_map _ _
  have hyall : ∀ x ∈ corpus.map (fun r => r.2), x = c := by
    intro x hx
    obtain ⟨r, hr, rfl⟩ := List.mem_map.mp hx
    exact hall r hr
  have hyne : corpus.map (fun r => r.2) ≠ [] := by
    intro h
    rw [← List.length_eq_zero] at h
    omega
  have hdedup : (corpus.map (fun r => r.2)).dedup = [c] :=
    dedup_const hyne hyall
  have hcount : (corpus.map (fun r => r.2)).count c = corpus.length := by
    rw [List.count_eq_length.mpr (fun b hb => (hyall b hb).symm)]
    exact hylen
  have hsc : stratifiedSplitCheck (corpus.map (fun r => r.2)) = none := by
    rw [stratifiedSplitCheck]
    simp only [hdedup, hylen, List.any_cons, List.any_nil, Bool.or_false,
      List.length_cons, List.length_nil]
    rw [if_neg, if_neg, if_neg]
    · omega
    · omega
    · simp only [hcount, decide_eq_true_eq]
      omega
  have hytrain_all : ∀ x ∈ (corpus.map (fun r => r.2)).drop
      ((corpus.length + 4) / 5), x = c :=
    fun x hx => hyall x (List.drop_subset _ _ hx)
  have hytrain_ne : (corpus.map (fun r => r.2)).drop
      ((corpus.length + 4) / 5) ≠ [] := by
    intro h
    have := congrArg List.length h
    rw [List.length_drop, hylen] at this
    simp only [List.length_nil] at this
    omega
  have hfit : fitLogisticRegression ((corpus.map (fun r => r.2)).drop
      ((corpus.length + 4) / 5)) = .error (.valueError (singleClassMsg c)) := by
    rw [fitLogisticRegression, dedup_const hytrain_ne hytrain_all]
  rw [train_pipeline]
  simp only [hsc, hvocab, hfit]

/-- A five-document corpus carrying only label 1, exercising the
amended C4 theorem at a concrete input. -/
def singleClassCorpusOne : List (String × Nat) :=
  [("alpha beta", 1), ("gamma delta", 1), ("gamma delta", 1),
   ("alpha beta", 1), ("epsilon zeta", 1)]

theorem c4_amended_single_class_value_error_witness :
    train_pipeline id [] singleClassCorpusOne =
      .error (.valueError (singleClassMsg 1)) :=
  c4_amended_single_class_value_error id [] singleClassCorpusOne 1
    ["gamma", "delta", "gamma delta"] (by decide) (by decide) (by decide)

/-! ## Artifact store (round-trip persistence)

The repository persists the trained model with `joblib.dump` and reads
it back with `pickle.load` (`train_model.py:139-158`,
`predictor.py:26-63`); the byte format itself is the pickle library's,
external to the repository.  Modelled from the spec: the ArtifactStore
contract of §4.6 over the logical bundle layout of §6
(`format_version`, vocabulary, idf table, n-gram range, classifier
coefficients/bias/classes, metadata), with a concrete verified byte
encoding.  Floating-point fields are carried as their 64-bit patterns
(`Nat`), so equality of the decoded artifact is bit-for-bit
reproduction of the weights. -/

/-- Encode a natural number: a unary length marker (`1`s closed by a
`0`) followed by the base-256 digits. -/
def encNat (n : Nat) : List Nat :=
  List.replicate (Nat.digits 256 n).length 1 ++ 0 :: Nat.digits 256 n

/-- Decode `encNat`: count the leading `1`s, skip the `0`, read that
many base-256 digits. -/
def decNat (l : List Nat) : Option (Nat × List Nat) :=
  match l.drop (l.takeWhile (fun b => b == 1)).length with
  | 0 :: rest =>
    if (l.takeWhile (fun b => b == 1)).length ≤ rest.length then
      some (Nat.ofDigits 256
          (rest.take (l.takeWhile (fun b => b == 1)).length),
        rest.drop (l.takeWhile (fun b => b == 1)).length)
    else none
  | _ => none

theorem takeWhile_replicate_one (k : Nat) (t : List Nat) :
    (List.replicate k 1 ++ 0 :: t).takeWhile (fun b => b == 1) =
      List.replicate k 1 := by
  induction k with
  | zero => simp [List.takeWhile_cons]
  | succ k ih => simp [List.replicate_succ, List.takeWhile_cons, ih]

theorem decNat_encNat (n : Nat) (r : List Nat) :
    decNat (encNat n ++ r) = some (n, r) := by
  have hshape : encNat n ++ r =
      List.replicate (Nat.digits 256 n).length 1 ++
        (0 :: (Nat.digits 256 n ++ r)) := by
    rw [encNat, List.append_assoc, List.cons_append]
  have hdrop := List.drop_left (List.replicate (Nat.digits 256 n).length 1)
    (0 :: (Nat.digits 256 n ++ r))
  rw [List.length_replicate] at hdrop
  rw [hshape]
  simp only [decNat, takeWhile_replicate_one, List.length_replicate, hdrop,
    List.take_left, List.drop_left, Nat.ofDigits_digits, List.length_append,
    Nat.le_add_right, if_true]

/-- Encode a list: the length, then the encoded elements. -/
def encListNat (enc : α → List Nat) (xs : List α) : List Nat :=
  encNat xs.length ++ (xs.map enc).flatten

/-- Decode exactly `k` elements. -/
def decManyNat (dec : List Nat → Option (α × List Nat)) :
    Nat → List Nat → Option (List α × List Nat)
  | 0, l => some ([], l)
  | k + 1, l =>
    match dec l with
    | none => none
    | some (a, l2) =>
      match decManyNat dec k l2 with
      | none => none
      | some (as, l3) => some (a :: as, l3)

/-- Decode `encListNat`: read the length, then that many elements. -/
def decListNat (dec : List Nat → Option (α × List Nat)) (l : List Nat) :
    Option (List α × List Nat) :=
  match decNat l with
  | none => none
  | some (k, l2) => decManyNat dec k l2

theorem decManyNat_enc {α} {dec : List Nat → Option (α × List Nat)}
    {enc : α → List Nat}
    (hdec : ∀ (x : α) (r : List Nat), dec (enc x ++ r) = some (x, r)) :
    ∀ (xs : List α) (r : List Nat),
      decManyNat dec xs.length ((xs.map enc).flatten ++ r) = some (xs, r) := by
  intro xs
  induction xs with
  | nil => intro r; simp [decManyNat]
  | cons x xs ih =>
    intro r
    rw [List.length_cons, List.map_cons, List.flatten_cons,
      List.append_assoc]
    simp only [decManyNat, hdec, ih]

theorem decListNat_enc {α} {dec : List Nat → Option (α × List Nat)}
    {enc : α → List Nat}
    (hdec : ∀ (x : α) (r : List Nat), dec (enc x ++ r) = some (x, r))
    (xs : List α) (r : List Nat) :
    decListNat dec (encListNat enc xs ++ r) = some (xs, r) := by
  rw [encListNat, List.append_assoc, decListNat, decNat_encNat]
  exact decManyNat_enc hdec xs r

/-- Encode a character by its code point. -/
def encChar (c : Char) : List Nat := encNat c.toNat

/-- Decode `encChar`. -/
def decChar (l : List Nat) : Option (Char × List Nat) :=
  match decNat l with
  | none => none
  | some (n, r) => some (Char.ofNat n, r)

theorem decChar_encChar (c : Char) (r : List Nat) :
    decChar (encChar c ++ r) = some (c, r) := by
  simp only [encChar, decChar, decNat_encNat, Char.ofNat_toNat]

/-- Encode a string as its character list. -/
def encString (s : String) : List Nat := encListNat encChar s.data

/-- Decode `encString`. -/
def decString (l : List Nat) : Option (String × List Nat) :=
  match decListNat decChar l with
  | none => none
  | some (cs, r) => some (String.mk cs, r)

theorem decString_encString (s : String) (r : List Nat) :
    decString (encString s ++ r) = some (s, r) := by
  simp only [encString, decString, decListNat_enc decChar_encChar]

/-- Encode a pair as the two encodings in order. -/
def encPair (encA : α → List Nat) (encB : β → List Nat) (p : α × β) :
    List Nat :=
  encA p.1 ++ encB p.2

/-- Decode `encPair`. -/
def decPair (decA : List Nat → Option (α × List Nat))
    (decB : List Nat → Option (β × List Nat)) (l : List Nat) :
    Option ((α × β) × List Nat) :=
  match decA l with
  | none => none
  | some (a, l2) =>
    match decB l2 with
    | none => none
    | some (b, l3) => some ((a, b), l3)

theorem decPair_encPair {α β} {decA : List Nat → Option (α × List Nat)}
    {encA : α → List Nat} {decB : List Nat → Option (β × List Nat)}
    {encB : β → List Nat}
    (hA : ∀ (x : α) (r : List Nat), decA (encA x ++ r) = some (x, r))
    (hB : ∀ (x : β) (r : List Nat), decB (encB x ++ r) = some (x, r))
    (p : α × β) (r : List Nat) :
    decPair decA decB (encPair encA encB p ++ r) = some (p, r) := by
  simp only [encPair, decPair, List.append_assoc, hA, hB]

/-- Modelled from the spec (§6): the persisted bundle — format version,
vocabulary (term to index), idf table (index to 64-bit float pattern),
n-gram range, classifier coefficients (64-bit float patterns), bias
(64-bit float pattern), class list, and metadata (training timestamp,
accuracy as a 64-bit float pattern, training sample count). -/
structure ModelArtifact where
  format_version : Nat
  vocabulary : List (String × Nat)
  idf_table : List (Nat × Nat)
  ngram_lo : Nat
  ngram_hi : Nat
  coefficients : List Nat
  bias : Nat
  classes : List Nat
  trained_at : String
  accuracy_bits : Nat
  training_sample_count : Nat
deriving DecidableEq

/-- Modelled from the spec (§4.6): `save(artifact) -> byte-stream`, the
fields encoded in the fixed layout order. -/
def ArtifactStore.save (a : ModelArtifact) : List Nat :=
  encNat a.format_version ++
    (encListNat (encPair encString encNat) a.vocabulary ++
      (encListNat (encPair encNat encNat) a.idf_table ++
        (encNat a.ngram_lo ++
          (encNat a.ngram_hi ++
            (encListNat encNat a.coefficients ++
              (encNat a.bias ++
                (encListNat encNat a.classes ++
                  (encString a.trained_at ++
                    (encNat a.accuracy_bits ++
                      encNat a.training_sample_count)))))))))

/-- Modelled from the spec (§4.6): `load(byte-stream) -> artifact`,
reading the fields back in order and rejecting trailing bytes (a partial
bundle is invalid). -/
def ArtifactStore.load (l : List Nat) : Option ModelArtifact :=
  match decNat l with
  | none => none
  | some (fv, l) =>
  match decListNat (decPair decString decNat) l with
  | none => none
  | some (vocab, l) =>
  match decListNat (decPair decNat decNat) l with
  | none => none
  | some (idf, l) =>
  match decNat l with
  | none => none
  | some (nlo, l) =>
  match decNat l with
  | none => none
  | some (nhi, l) =>
  match decListNat decNat l with
  | none => none
  | some (coefs, l) =>
  match decNat l with
  | none => none
  | some (b, l) =>
  match decListNat decNat l with
  | none => none
  | some (cls, l) =>
  match decString l with
  | none => none
  | some (ta, l) =>
  match decNat l with
  | none => none
  | some (acc, l) =>
  match decNat l with
  | none => none
  | some (tsc, l) =>
    if l.isEmpty then
      some ⟨fv, vocab, idf, nlo, nhi, coefs, b, cls, ta, acc, tsc⟩
    else none

/-- C5: loading the bytes produced by saving a trained artifact yields
an artifact equal to it in every field; the floating-point weights are
carried as their 64-bit patterns, so the equality is bit-for-bit
reproduction. -/
theorem c5_artifact_round_trip (a : ModelArtifact) :
    ArtifactStore.load (ArtifactStore.save a) = some a := by
  obtain ⟨fv, vocab, idf, nlo, nhi, coefs, b, cls, ta, acc, tsc⟩ := a
  have happ : ∀ (x : List Nat), x ++ ([] : List Nat) = x :=
    List.append_nil
  rw [ArtifactStore.save, ArtifactStore.load]
  rw [show encNat tsc = encNat tsc ++ [] from (happ _).symm]
  simp only [decNat_encNat,
    decListNat_enc (decPair_encPair decString_encString decNat_encNat),
    decListNat_enc (decPair_encPair decNat_encNat decNat_encNat),
    decListNat_enc decNat_encNat, decString_encString,
    List.isEmpty_nil, if_true]

end FND
